import Mathlib

/-!
Verification of the mdrip tutorial-tree core (`program` package):
desirability filters, scanner/builder (`scanDir`, `scanFile`, `LoadOne`,
`LoadMany`), the tutorial node model (`Lesson`, `Course`, `TopCourse`),
and the visitors (`TutorialPrinter`, `TutorialParser`, and the
nav-fragment printer known only through its test fixtures and the design
document).

Modelling conventions:
* Go `(T, error)` return pairs become `Option T × Option String`
  (value component, error component) where the distinction matters, and
  `Except String T` where the code trivially maintains the usual
  exclusive convention.
* A Go runtime panic is modelled by an outer `Option`: `none` means the
  call does not return.  This matters because on a failed `os.Stat` the
  filters evaluate `s.Name()` on the `nil` `FileInfo` interface value
  inside the `glog.Info` argument, which panics.
* The filesystem is an explicit value: an `FsNode` describes what the
  OS answers for one path (stat data, directory listing, file bytes).
-/

/-- Go `path/filepath.Base` on slash-separated paths: last element after
stripping trailing separators; `"."` for the empty path, `"/"` for an
all-separator path. -/
def goBase (s : String) : String :=
  if s = "" then "."
  else
    let r := s.data.reverse.dropWhile (fun c => c = '/')
    let b := (r.takeWhile (fun c => c != '/')).reverse
    if b = [] then "/" else String.mk b

/-- Helper for `goExt`: scan the reversed character list for the last dot
before any separator, returning the (un-reversed) suffix from that dot. -/
def goExtRev : List Char → List Char → List Char
  | [], _ => []
  | c :: rest, acc =>
    if c = '/' then []
    else if c = '.' then c :: acc
    else goExtRev rest (c :: acc)

/-- Go `path/filepath.Ext`: the suffix beginning at the final dot in the
final element of the path; empty if there is no dot. -/
def goExt (s : String) : String :=
  String.mk (goExtRev s.data.reverse [])

/-- The data `os.Stat` reports for a path: `Name()`, `IsDir()`,
`Mode().IsRegular()`. -/
structure FileInfo where
  name : String
  isDir : Bool
  isRegular : Bool
deriving DecidableEq, Repr

/-- One point of the filesystem as the OS presents it to the scanner:
a stat-able file with its read result, a stat-able directory with its
listing result (entry name paired with the node the joined path resolves
to), or a path whose `os.Stat` fails. -/
inductive FsNode where
  | file (info : FileInfo) (content : Except String String)
  | dir (info : FileInfo) (entries : Except String (List (String × FsNode)))
  | broken
deriving Repr

/-- Stat result lookup, `os.Stat`: `none` is the error case (in which Go hands back a `nil`
`FileInfo` interface value). -/
def osStat : FsNode → Option FileInfo
  | .file i _ => some i
  | .dir i _ => some i
  | .broken => none

/-- Constant `badLeadingChar = "~.#"` from the source. -/
def badLeadingChar : String := "~.#"

/-- Filter `isDesirableFile` from the source.  `none` models the panic: on a
stat error the code evaluates `"Stat error on " + s.Name()` with `s` the
nil `FileInfo`, and `base[0]` would panic on an empty base name (the
latter is unreachable because `goBase` never returns `""`). -/
def isDesirableFile (n : FsNode) : Option Bool :=
  match osStat n with
  | none => none
  | some s =>
    if s.isDir then some false
    else if !s.isRegular then some false
    else if goExt s.name != ".md" then some false
    else
      match (goBase s.name).data with
      | [] => none
      | c :: _ => some (!(badLeadingChar.data.contains c))

/-- Filter `isDesirableDir` from the source; `none` models the same stat-error
panic as in `isDesirableFile`. -/
def isDesirableDir (n : FsNode) : Option Bool :=
  match osStat n with
  | none => none
  | some s =>
    if !s.isDir then some false
    else if s.name = "." || s.name = "./" || s.name = ".." then some true
    else if (goBase s.name).data.head? = some '.' then some false
    else some true

/-- The tutorial tree: `Lesson` (file leaf), `Course` (directory branch),
`TopCourse` (unnamed root), as defined in the source. -/
inductive Tutorial where
  | lesson (filepath : String) (content : String)
  | course (filepath : String) (children : List Tutorial)
  | topCourse (filepath : String) (children : List Tutorial)
deriving Repr

/-- Accessor `Name()`: `Lesson` and `Course` return the base name of their path
(`model.FilePath.Base`, modelled from the spec as Go base-name
semantics); `TopCourse.Name()` is hardcoded to the empty string. -/
def Tutorial.name : Tutorial → String
  | .lesson p _ => goBase p
  | .course p _ => goBase p
  | .topCourse _ _ => ""

/-- Accessor `Path()` of each node variant. -/
def Tutorial.path : Tutorial → String
  | .lesson p _ => p
  | .course p _ => p
  | .topCourse p _ => p

/-- Accessor `Content()`: the file text for a `Lesson`, empty otherwise. -/
def Tutorial.content : Tutorial → String
  | .lesson _ c => c
  | .course _ _ => ""
  | .topCourse _ _ => ""

/-- Accessor `Children()`: empty for a `Lesson`, the stored ordered list for
`Course` and `TopCourse`. -/
def Tutorial.children : Tutorial → List Tutorial
  | .lesson _ _ => []
  | .course _ cs => cs
  | .topCourse _ cs => cs

/-- Reading a path, `Read()` (the filesystem source capability): the file's
bytes or a read error. -/
def readBytes : FsNode → Except String String
  | .file _ c => c
  | .dir _ _ => .error "read: is a directory"
  | .broken => .error "read: stat error"

/-- Function `scanFile` from the source: read the content, wrap it as a Lesson,
propagate the read failure. -/
def scanFile (p : String) (n : FsNode) : Except String Tutorial :=
  match readBytes n with
  | .error e => .error e
  | .ok contents => .ok (.lesson p contents)

mutual

/-- Function `scanDir` from the source.  The result is `none` for a panic,
`some (c, e)` for Go's `(*Course, error)` pair: `(none, none)` is the
"no node" outcome that prunes empty directories.  The match on the node
inlines `d.ReadDir()` (the `.file`/`.broken` cases are a listing
failure). -/
def scanDir (d : String) (n : FsNode) : Option (Option Tutorial × Option String) :=
  match n with
  | .file _ _ => some (none, some "readdirent: not a directory")
  | .broken => some (none, some "readdirent: stat error")
  | .dir _ (.error e) => some (none, some e)
  | .dir _ (.ok files) =>
    match scanItems d files with
    | none => none
    | some (.error e) => some (none, some e)
    | some (.ok items) =>
      if items.length > 0 then some (some (.course d items), none)
      else some (none, none)

/-- The entry loop of `scanDir`: `p := d.Join(f)` (join modelled from
the spec as separator concatenation); file-desirable entries are read
and appended, dir-desirable entries are scanned recursively and appended
when non-absent, any error aborts, everything else is skipped. -/
def scanItems (d : String) (files : List (String × FsNode)) : Option (Except String (List Tutorial)) :=
  match files with
  | [] => some (.ok [])
  | (f, node) :: rest =>
    let p := d ++ "/" ++ f
    match isDesirableFile node with
    | none => none
    | some true =>
      match scanFile p node with
      | .error e => some (.error e)
      | .ok l =>
        match scanItems d rest with
        | none => none
        | some (.error e) => some (.error e)
        | some (.ok items) => some (.ok (l :: items))
    | some false =>
      match isDesirableDir node with
      | none => none
      | some true =>
        match scanDir p node with
        | none => none
        | some (_, some e) => some (.error e)
        | some (some c, none) =>
          match scanItems d rest with
          | none => none
          | some (.error e) => some (.error e)
          | some (.ok items) => some (.ok (c :: items))
        | some (none, none) => scanItems d rest
      | some false => scanItems d rest

end

/-- Translate `scanFile`'s `Except` result into the `(value, error)`
pair shape that `LoadOne` returns (`return scanFile(root)`). -/
def toRet : Except String Tutorial → Option Tutorial × Option String
  | .ok t => (some t, none)
  | .error e => (none, some e)

/-- Function `LoadOne` from the source: desirable file → `scanFile`; else
desirable directory → `scanDir`, rewrapping a resulting Course's
children into a `TopCourse` at the root; otherwise (including the
pruned-to-nothing case) the "Cannot process" error. -/
def LoadOne (root : String) (n : FsNode) : Option (Option Tutorial × Option String) :=
  match isDesirableFile n with
  | none => none
  | some true => some (toRet (scanFile root n))
  | some false =>
    match isDesirableDir n with
    | none => none
    | some true =>
      match scanDir root n with
      | none => none
      | some (_, some e) => some (none, some e)
      | some (some c, none) => some (some (.topCourse root c.children), none)
      | some (none, none) => some (none, some ("Cannot process " ++ root))
    | some false => some (none, some ("Cannot process " ++ root))

/-- The accumulation loop of `LoadMany` (each path treated
independently, no join). -/
def loadItems (fileNames : List (String × FsNode)) : Option (Except String (List Tutorial)) :=
  match fileNames with
  | [] => some (.ok [])
  | (f, node) :: rest =>
    match isDesirableFile node with
    | none => none
    | some true =>
      match scanFile f node with
      | .error e => some (.error e)
      | .ok l =>
        match loadItems rest with
        | none => none
        | some (.error e) => some (.error e)
        | some (.ok items) => some (.ok (l :: items))
    | some false =>
      match isDesirableDir node with
      | none => none
      | some true =>
        match scanDir f node with
        | none => none
        | some (_, some e) => some (.error e)
        | some (some c, none) =>
          match loadItems rest with
          | none => none
          | some (.error e) => some (.error e)
          | some (.ok items) => some (.ok (c :: items))
        | some (none, none) => loadItems rest
      | some false => loadItems rest

/-- Function `LoadMany` from the source: empty input errors with "no files?",
a single path delegates to `LoadOne`, otherwise non-empty results are
collected into a `TopCourse` with an empty path, and "Nothing useful
found" is the all-pruned error. -/
def LoadMany (fileNames : List (String × FsNode)) : Option (Option Tutorial × Option String) :=
  match fileNames with
  | [] => some (none, some "no files?")
  | [fn] => LoadOne fn.1 fn.2
  | _ =>
    match loadItems fileNames with
    | none => none
    | some (.error e) => some (none, some e)
    | some (.ok items) =>
      if items.length > 0 then some (some (.topCourse "" items), none)
      else some (none, some "Nothing useful found")


/-- The debug printer's state: the indentation column counter and the
`io.Writer`, modelled as the ordered list of strings written so far
(the rendered output is their concatenation). -/
structure TutorialPrinter where
  indent : Int
  w : List String
deriving DecidableEq, Repr

/-- Method `TutorialPrinter.spaces` from the source: empty below one column,
otherwise `fmt.Sprintf("%<indent>s", " ")`, i.e. `indent` spaces. -/
def spaces (indent : Int) : String :=
  if indent < 1 then "" else String.mk (List.replicate indent.toNat ' ')

mutual

/-- Dispatch `Accept` driving the `TutorialPrinter` visitor from the source,
parameterised by `util.SampleString` (external helper, abstracted):
a lesson emits `<indent><Name()> --- <SampleString(Content(), 60)>...\n`;
a course emits `<indent><Name()>\n`, bumps the indent by 3, visits its
children, then subtracts 3; the top course just visits its children.
`goBase p` is `Name()` unfolded on each variant. -/
def printerAccept (sample : String → Nat → String) (v : TutorialPrinter) :
    Tutorial → TutorialPrinter
  | .lesson p c =>
    { v with w := v.w ++ [spaces v.indent ++ goBase p ++ " --- " ++ sample c 60 ++ "...\n"] }
  | .course p cs =>
    let v1 : TutorialPrinter :=
      { indent := v.indent + 3, w := v.w ++ [spaces v.indent ++ goBase p ++ "\n"] }
    let v2 := printerList sample v1 cs
    { v2 with indent := v2.indent - 3 }
  | .topCourse _ cs => printerList sample v cs

/-- The `for _, x := range children { x.Accept(v) }` loop of the
printer's course/top-course methods. -/
def printerList (sample : String → Nat → String) (v : TutorialPrinter) :
    List Tutorial → TutorialPrinter
  | [] => v
  | t :: ts => printerList sample (printerAccept sample v t) ts

end

/-- Result type `model.ParsedFile` (not under src/), modelled from the spec: "wraps
(path, blocks) as a parsed-file result".  `β` is the lexer's opaque
Block type. -/
structure ParsedFile (β : Type) where
  path : String
  blocks : List β
deriving DecidableEq, Repr

/-- The content parser's state from the source: the target label and the
ordered accumulated parsed-file results. -/
structure TutorialParser (β : Type) where
  label : String
  parsedFiles : List (ParsedFile β)
deriving DecidableEq, Repr

mutual

/-- Dispatch `Accept` driving the `TutorialParser` visitor from the source,
parameterised by the external lexer: `parse content label` is the
`ok`-checked lookup `lexer.Parse(content)[label]`.  A lesson appends
`NewParsedFile(path, blocks)` exactly when the lookup hits; courses and
the top course visit their children in order. -/
def parserAccept {β : Type} (parse : String → String → Option (List β))
    (v : TutorialParser β) : Tutorial → TutorialParser β
  | .lesson p c =>
    match parse c v.label with
    | some blocks => { v with parsedFiles := v.parsedFiles ++ [⟨p, blocks⟩] }
    | none => v
  | .course _ cs => parserList parse v cs
  | .topCourse _ cs => parserList parse v cs

/-- The child loop of the parser's course/top-course methods. -/
def parserList {β : Type} (parse : String → String → Option (List β))
    (v : TutorialParser β) : List Tutorial → TutorialParser β
  | [] => v
  | t :: ts => parserList parse (parserAccept parse v t) ts

end

/-- Modelled from the spec: the nav printer's per-instance state (the
`tutorial` package's `NewTutorialNavPrinter` is not under src/): a write
cursor, the container-id counter (ids `n<k>` starting at 1) and the
0-based pre-order lesson counter (leaf handles `L<i>`). -/
structure NavPrinter where
  idCount : Nat
  lessonCount : Nat
  w : List String
deriving DecidableEq, Repr

/-- Modelled from the spec: nav indentation is 2 spaces per nesting
depth. -/
def navIndent (depth : Nat) : String :=
  String.mk (List.replicate (2 * depth) ' ')

mutual

/-- Modelled from the spec (§4.5, "NavPrinter — HTML left-navigation
renderer", whose rendering is fixed byte-for-byte by the two test
fixtures): every node is wrapped as
`<div class='lnav1' data-name="<name-or-'.'>">`, followed at one more
depth unit by the handle — `assureActive('L<i>')` for a lesson leaf,
`toggle('n<k>')` for a course — then the body
`<div id='n<k>' style='display: <block-if-outermost-else-none>;'>`
holding the children two depth units deeper, then the two closing tags.
`<k>` is the running container id (starting at 1, assigned on entry in
visit order) and `<i>` the 0-based document-order lesson index. -/
def navAccept (st : NavPrinter) (depth : Nat) : Tutorial → NavPrinter
  | .lesson p _ =>
    let nm := if goBase p = "" then "." else goBase p
    let k := st.idCount + 1
    { idCount := k, lessonCount := st.lessonCount + 1,
      w := st.w ++
        [navIndent depth ++ "<div class='lnav1' data-name=\"" ++ nm ++ "\">\n",
         navIndent (depth + 1) ++ "<div onclick=\"assureActive('L" ++
           toString st.lessonCount ++ "')\">" ++ nm ++ "</div>\n",
         navIndent (depth + 1) ++ "<div id='n" ++ toString k ++ "' style='display: " ++
           (if depth = 0 then "block" else "none") ++ ";'>\n",
         navIndent (depth + 1) ++ "</div>\n",
         navIndent depth ++ "</div>\n"] }
  | .course p cs =>
    let nm := if goBase p = "" then "." else goBase p
    let k := st.idCount + 1
    let st1 : NavPrinter :=
      { idCount := k, lessonCount := st.lessonCount,
        w := st.w ++
          [navIndent depth ++ "<div class='lnav1' data-name=\"" ++ nm ++ "\">\n",
           navIndent (depth + 1) ++ "<div onclick=\"toggle('n" ++ toString k ++
             "')\">" ++ nm ++ "</div>\n",
           navIndent (depth + 1) ++ "<div id='n" ++ toString k ++ "' style='display: " ++
             (if depth = 0 then "block" else "none") ++ ";'>\n"] }
    let st2 := navList st1 (depth + 2) cs
    { st2 with
      w := st2.w ++ [navIndent (depth + 1) ++ "</div>\n", navIndent depth ++ "</div>\n"] }
  | .topCourse _ cs =>
    let nm := "."
    let k := st.idCount + 1
    let st1 : NavPrinter :=
      { idCount := k, lessonCount := st.lessonCount,
        w := st.w ++
          [navIndent depth ++ "<div class='lnav1' data-name=\"" ++ nm ++ "\">\n",
           navIndent (depth + 1) ++ "<div onclick=\"toggle('n" ++ toString k ++
             "')\">" ++ nm ++ "</div>\n",
           navIndent (depth + 1) ++ "<div id='n" ++ toString k ++ "' style='display: " ++
             (if depth = 0 then "block" else "none") ++ ";'>\n"] }
    let st2 := navList st1 (depth + 2) cs
    { st2 with
      w := st2.w ++ [navIndent (depth + 1) ++ "</div>\n", navIndent depth ++ "</div>\n"] }

/-- Children loop of the nav renderer (modelled from the spec). -/
def navList (st : NavPrinter) (depth : Nat) : List Tutorial → NavPrinter
  | [] => st
  | t :: ts => navList (navAccept st depth t) depth ts

end

/-- One step of the canonical pre-order visit sequence of a tree:
entering/leaving a lesson, course, or top course, with the payload each
visitor reads at that step. -/
inductive VEvent where
  | enterLesson (p c : String)
  | leaveLesson
  | enterCourse (p : String)
  | leaveCourse
  | enterTop (p : String)
  | leaveTop
deriving DecidableEq, Repr

mutual

/-- The canonical pre-order depth-first visit sequence of a tree:
each node is entered before its children, children are taken in stored
order, and the node is left after them. -/
def visitSeq : Tutorial → List VEvent
  | .lesson p c => [.enterLesson p c, .leaveLesson]
  | .course p cs => .enterCourse p :: (visitSeqList cs ++ [.leaveCourse])
  | .topCourse p cs => .enterTop p :: (visitSeqList cs ++ [.leaveTop])

/-- Concatenated visit sequences of a list of siblings, in order. -/
def visitSeqList : List Tutorial → List VEvent
  | [] => []
  | t :: ts => visitSeq t ++ visitSeqList ts

end

/-- The debug printer's reaction to a single visit event (the same
writes and indent updates its visitor methods perform at that point of
the traversal). -/
def printerStep (sample : String → Nat → String) (v : TutorialPrinter) :
    VEvent → TutorialPrinter
  | .enterLesson p c =>
    { v with w := v.w ++ [spaces v.indent ++ goBase p ++ " --- " ++ sample c 60 ++ "...\n"] }
  | .leaveLesson => v
  | .enterCourse p =>
    { indent := v.indent + 3, w := v.w ++ [spaces v.indent ++ goBase p ++ "\n"] }
  | .leaveCourse => { v with indent := v.indent - 3 }
  | .enterTop _ => v
  | .leaveTop => v

/-- The debug printer as a single left-to-right pass over a visit
sequence. -/
def printerFold (sample : String → Nat → String) (v : TutorialPrinter)
    (es : List VEvent) : TutorialPrinter :=
  es.foldl (printerStep sample) v

/-- The content parser's reaction to a single visit event. -/
def parserStep {β : Type} (parse : String → String → Option (List β))
    (v : TutorialParser β) : VEvent → TutorialParser β
  | .enterLesson p c =>
    match parse c v.label with
    | some blocks => { v with parsedFiles := v.parsedFiles ++ [⟨p, blocks⟩] }
    | none => v
  | _ => v

/-- The content parser as a single left-to-right pass over a visit
sequence. -/
def parserFold {β : Type} (parse : String → String → Option (List β))
    (v : TutorialParser β) (es : List VEvent) : TutorialParser β :=
  es.foldl (parserStep parse) v

/-- Nav-printer state extended with the current nesting depth, so the
renderer can be replayed event by event. -/
structure NavFoldState where
  idCount : Nat
  lessonCount : Nat
  depth : Nat
  w : List String
deriving DecidableEq, Repr

/-- The nav renderer's reaction to a single visit event: entering a node
emits the wrapper, handle and body-open lines and descends two depth
units; leaving ascends and emits the two closing lines. -/
def navStep (st : NavFoldState) : VEvent → NavFoldState
  | .enterLesson p _ =>
    let nm := if goBase p = "" then "." else goBase p
    let k := st.idCount + 1
    { idCount := k, lessonCount := st.lessonCount + 1, depth := st.depth + 2,
      w := st.w ++
        [navIndent st.depth ++ "<div class='lnav1' data-name=\"" ++ nm ++ "\">\n",
         navIndent (st.depth + 1) ++ "<div onclick=\"assureActive('L" ++
           toString st.lessonCount ++ "')\">" ++ nm ++ "</div>\n",
         navIndent (st.depth + 1) ++ "<div id='n" ++ toString k ++ "' style='display: " ++
           (if st.depth = 0 then "block" else "none") ++ ";'>\n"] }
  | .leaveLesson =>
    let d := st.depth - 2
    { st with
        depth := d,
        w := st.w ++ [navIndent (d + 1) ++ "</div>\n", navIndent d ++ "</div>\n"] }
  | .enterCourse p =>
    let nm := if goBase p = "" then "." else goBase p
    let k := st.idCount + 1
    { idCount := k, lessonCount := st.lessonCount, depth := st.depth + 2,
      w := st.w ++
        [navIndent st.depth ++ "<div class='lnav1' data-name=\"" ++ nm ++ "\">\n",
         navIndent (st.depth + 1) ++ "<div onclick=\"toggle('n" ++ toString k ++
           "')\">" ++ nm ++ "</div>\n",
         navIndent (st.depth + 1) ++ "<div id='n" ++ toString k ++ "' style='display: " ++
           (if st.depth = 0 then "block" else "none") ++ ";'>\n"] }
  | .leaveCourse =>
    let d := st.depth - 2
    { st with
        depth := d,
        w := st.w ++ [navIndent (d + 1) ++ "</div>\n", navIndent d ++ "</div>\n"] }
  | .enterTop _ =>
    let nm := "."
    let k := st.idCount + 1
    { idCount := k, lessonCount := st.lessonCount, depth := st.depth + 2,
      w := st.w ++
        [navIndent st.depth ++ "<div class='lnav1' data-name=\"" ++ nm ++ "\">\n",
         navIndent (st.depth + 1) ++ "<div onclick=\"toggle('n" ++ toString k ++
           "')\">" ++ nm ++ "</div>\n",
         navIndent (st.depth + 1) ++ "<div id='n" ++ toString k ++ "' style='display: " ++
           (if st.depth = 0 then "block" else "none") ++ ";'>\n"] }
  | .leaveTop =>
    let d := st.depth - 2
    { st with
        depth := d,
        w := st.w ++ [navIndent (d + 1) ++ "</div>\n", navIndent d ++ "</div>\n"] }

/-- The nav renderer as a single left-to-right pass over a visit
sequence. -/
def navFold (st : NavFoldState) (es : List VEvent) : NavFoldState :=
  es.foldl navStep st

mutual

/-- The spec's description of the debug printer's output (§4.4 of the
design document), written independently of the stateful visitor: a
lesson is one `<indent><name> --- <sample>...\n` line; a course is its
`<indent><name>\n` line followed by its children's lines 3 columns
deeper; the top course contributes only its children's lines. -/
def printerDocChunks (sample : String → Nat → String) (ind : Int) :
    Tutorial → List String
  | .lesson p c => [spaces ind ++ goBase p ++ " --- " ++ sample c 60 ++ "...\n"]
  | .course p cs => (spaces ind ++ goBase p ++ "\n") :: printerDocList sample (ind + 3) cs
  | .topCourse _ cs => printerDocList sample ind cs

/-- Document-order concatenation of sibling chunks for
`printerDocChunks`. -/
def printerDocList (sample : String → Nat → String) (ind : Int) :
    List Tutorial → List String
  | [] => []
  | t :: ts => printerDocChunks sample ind t ++ printerDocList sample ind ts

end

mutual

/-- The shape invariant of built trees: every course node has a
non-empty child list (lessons carry no children by construction). -/
def wf : Tutorial → Bool
  | .lesson _ _ => true
  | .course _ cs => !cs.isEmpty && wfList cs
  | .topCourse _ cs => wfList cs

/-- Predicate `wf` on every element of a list. -/
def wfList : List Tutorial → Bool
  | [] => true
  | t :: ts => wf t && wfList ts

end

mutual

/-- Number of `TopCourse` nodes in a tree. -/
def countTop : Tutorial → Nat
  | .lesson _ _ => 0
  | .course _ cs => countTopList cs
  | .topCourse _ cs => 1 + countTopList cs

/-- Total `TopCourse` count of a list of trees. -/
def countTopList : List Tutorial → Nat
  | [] => 0
  | t :: ts => countTop t + countTopList ts

end

mutual

/-- The lessons of a tree in pre-order document order, as
(path, content) pairs. -/
def lessonsOf : Tutorial → List (String × String)
  | .lesson p c => [(p, c)]
  | .course _ cs => lessonsList cs
  | .topCourse _ cs => lessonsList cs

/-- Document-order concatenation of the lessons of sibling trees. -/
def lessonsList : List Tutorial → List (String × String)
  | [] => []
  | t :: ts => lessonsOf t ++ lessonsList ts

end

/-- A concrete desirable markdown file (stat data plus readable
content), used to instantiate the loader theorems. -/
def exFile : FsNode := .file ⟨"a.md", false, true⟩ (.ok "hello")

/-- A concrete desirable directory containing `exFile` under the entry
name `a.md`. -/
def exDir : FsNode := .dir ⟨"d", true, false⟩ (.ok [("a.md", exFile)])

/-- A concrete directory whose listing contains an entry whose
`os.Stat` fails (for instance a dangling symlink). -/
def exBrokenDir : FsNode := .dir ⟨"d", true, false⟩ (.ok [("lnk", .broken)])

/-- A lexer result in which every content maps every label to an empty
block list: the label is present in the mapping, with no blocks. -/
def parseEmptyHit : String → String → Option (List Nat) := fun _ _ => some []

mutual

theorem printerAccept_eq_fold (sample : String → Nat → String) (v : TutorialPrinter) :
    (t : Tutorial) → printerAccept sample v t = printerFold sample v (visitSeq t)
  | .lesson p c => by
    simp [printerAccept, printerFold, visitSeq, printerStep]
  | .course p cs => by
    have h := printerList_eq_fold sample
      { indent := v.indent + 3, w := v.w ++ [spaces v.indent ++ goBase p ++ "\n"] } cs
    simp only [printerAccept, printerFold, visitSeq, List.foldl_cons, List.foldl_append,
      List.foldl_nil, printerStep] at h ⊢
    rw [h]
  | .topCourse p cs => by
    have h := printerList_eq_fold sample v cs
    simp only [printerAccept, printerFold, visitSeq, List.foldl_cons, List.foldl_append,
      List.foldl_nil, printerStep] at h ⊢
    rw [h]

theorem printerList_eq_fold (sample : String → Nat → String) (v : TutorialPrinter) :
    (ts : List Tutorial) → printerList sample v ts = printerFold sample v (visitSeqList ts)
  | [] => by simp [printerList, printerFold, visitSeqList]
  | t :: ts => by
    have h1 := printerAccept_eq_fold sample v t
    have h2 := printerList_eq_fold sample (printerAccept sample v t) ts
    simp only [printerList, printerFold, visitSeqList, List.foldl_append] at h1 h2 ⊢
    rw [h2, h1]

end

mutual

theorem parserAccept_eq_fold {β : Type} (parse : String → String → Option (List β))
    (v : TutorialParser β) :
    (t : Tutorial) → parserAccept parse v t = parserFold parse v (visitSeq t)
  | .lesson p c => by
    simp [parserAccept, parserFold, visitSeq, parserStep]
  | .course p cs => by
    have h := parserList_eq_fold parse v cs
    simp only [parserAccept, parserFold, visitSeq, List.foldl_cons, List.foldl_append,
      List.foldl_nil, parserStep] at h ⊢
    rw [h]
  | .topCourse p cs => by
    have h := parserList_eq_fold parse v cs
    simp only [parserAccept, parserFold, visitSeq, List.foldl_cons, List.foldl_append,
      List.foldl_nil, parserStep] at h ⊢
    rw [h]

theorem parserList_eq_fold {β : Type} (parse : String → String → Option (List β))
    (v : TutorialParser β) :
    (ts : List Tutorial) → parserList parse v ts = parserFold parse v (visitSeqList ts)
  | [] => by simp [parserList, parserFold, visitSeqList]
  | t :: ts => by
    have h1 := parserAccept_eq_fold parse v t
    have h2 := parserList_eq_fold parse (parserAccept parse v t) ts
    simp only [parserList, parserFold, visitSeqList, List.foldl_append] at h1 h2 ⊢
    rw [h2, h1]

end

mutual

theorem navAccept_eq_fold (st : NavPrinter) (d : Nat) :
    (t : Tutorial) →
      navFold ⟨st.idCount, st.lessonCount, d, st.w⟩ (visitSeq t) =
        ⟨(navAccept st d t).idCount, (navAccept st d t).lessonCount, d, (navAccept st d t).w⟩
  | .lesson p c => by
    simp [navAccept, navFold, visitSeq, navStep, List.append_assoc]
  | .course p cs => by
    have h := navList_eq_fold
      { idCount := st.idCount + 1, lessonCount := st.lessonCount,
        w := st.w ++
          [navIndent d ++ "<div class='lnav1' data-name=\"" ++
             (if goBase p = "" then "." else goBase p) ++ "\">\n",
           navIndent (d + 1) ++ "<div onclick=\"toggle('n" ++ toString (st.idCount + 1) ++
             "')\">" ++ (if goBase p = "" then "." else goBase p) ++ "</div>\n",
           navIndent (d + 1) ++ "<div id='n" ++ toString (st.idCount + 1) ++
             "' style='display: " ++ (if d = 0 then "block" else "none") ++ ";'>\n"] }
      (d + 2) cs
    simp only [navAccept, navFold, visitSeq, List.foldl_cons, List.foldl_append,
      List.foldl_nil, navStep] at h ⊢
    rw [h]
    simp [List.append_assoc]
  | .topCourse p cs => by
    have h := navList_eq_fold
      { idCount := st.idCount + 1, lessonCount := st.lessonCount,
        w := st.w ++
          [navIndent d ++ "<div class='lnav1' data-name=\"" ++ "." ++ "\">\n",
           navIndent (d + 1) ++ "<div onclick=\"toggle('n" ++ toString (st.idCount + 1) ++
             "')\">" ++ "." ++ "</div>\n",
           navIndent (d + 1) ++ "<div id='n" ++ toString (st.idCount + 1) ++
             "' style='display: " ++ (if d = 0 then "block" else "none") ++ ";'>\n"] }
      (d + 2) cs
    simp only [navAccept, navFold, visitSeq, List.foldl_cons, List.foldl_append,
      List.foldl_nil, navStep] at h ⊢
    rw [h]
    simp [List.append_assoc]

theorem navList_eq_fold (st : NavPrinter) (d : Nat) :
    (ts : List Tutorial) →
      navFold ⟨st.idCount, st.lessonCount, d, st.w⟩ (visitSeqList ts) =
        ⟨(navList st d ts).idCount, (navList st d ts).lessonCount, d, (navList st d ts).w⟩
  | [] => by simp [navList, navFold, visitSeqList]
  | t :: ts => by
    have h1 := navAccept_eq_fold st d t
    have h2 := navList_eq_fold (navAccept st d t) d ts
    simp only [navList, navFold, visitSeqList, List.foldl_append] at h1 h2 ⊢
    rw [h1, h2]

end

mutual

theorem printerAccept_doc (sample : String → Nat → String) (v : TutorialPrinter) :
    (t : Tutorial) →
      printerAccept sample v t = ⟨v.indent, v.w ++ printerDocChunks sample v.indent t⟩
  | .lesson p c => by
    simp [printerAccept, printerDocChunks]
  | .course p cs => by
    have h := printerList_doc sample
      { indent := v.indent + 3, w := v.w ++ [spaces v.indent ++ goBase p ++ "\n"] } cs
    simp only [printerAccept, printerDocChunks] at h ⊢
    rw [h]
    simp [List.append_assoc]
  | .topCourse p cs => by
    have h := printerList_doc sample v cs
    simp only [printerAccept, printerDocChunks] at h ⊢
    rw [h]

theorem printerList_doc (sample : String → Nat → String) (v : TutorialPrinter) :
    (ts : List Tutorial) →
      printerList sample v ts = ⟨v.indent, v.w ++ printerDocList sample v.indent ts⟩
  | [] => by simp [printerList, printerDocList]
  | t :: ts => by
    have h1 := printerAccept_doc sample v t
    have h2 := printerList_doc sample (printerAccept sample v t) ts
    simp only [printerList, printerDocList] at h1 h2 ⊢
    rw [h2, h1]
    simp [List.append_assoc]

end

mutual

theorem parserAccept_lessons {β : Type} (parse : String → String → Option (List β))
    (v : TutorialParser β) :
    (t : Tutorial) →
      parserAccept parse v t =
        ⟨v.label, v.parsedFiles ++ (lessonsOf t).filterMap
          (fun x => (parse x.2 v.label).map (fun bs => ⟨x.1, bs⟩))⟩
  | .lesson p c => by
    cases hp : parse c v.label with
    | none => simp [parserAccept, lessonsOf, hp]
    | some blocks => simp [parserAccept, lessonsOf, hp]
  | .course p cs => by
    have h := parserList_lessons parse v cs
    simp only [parserAccept, lessonsOf] at h ⊢
    rw [h]
  | .topCourse p cs => by
    have h := parserList_lessons parse v cs
    simp only [parserAccept, lessonsOf] at h ⊢
    rw [h]

theorem parserList_lessons {β : Type} (parse : String → String → Option (List β))
    (v : TutorialParser β) :
    (ts : List Tutorial) →
      parserList parse v ts =
        ⟨v.label, v.parsedFiles ++ (lessonsList ts).filterMap
          (fun x => (parse x.2 v.label).map (fun bs => ⟨x.1, bs⟩))⟩
  | [] => by simp [parserList, lessonsList]
  | t :: ts => by
    have h1 := parserAccept_lessons parse v t
    have h2 := parserList_lessons parse (parserAccept parse v t) ts
    simp only [parserList, lessonsList] at h1 h2 ⊢
    rw [h2, h1]
    simp [List.filterMap_append, List.append_assoc]

end

theorem scanFile_ok (p : String) (n : FsNode) (t : Tutorial)
    (h : scanFile p n = .ok t) : ∃ c, t = .lesson p c := by
  cases hr : readBytes n with
  | error e => simp [scanFile, hr] at h
  | ok c => simp [scanFile, hr] at h; exact ⟨c, h.symm⟩

mutual

theorem scanDir_cases (d : String) :
    (n : FsNode) → ∀ r, scanDir d n = some r →
      r = (none, none) ∨ (∃ e, r = (none, some e)) ∨
      (∃ items, r = (some (.course d items), none) ∧ items ≠ [] ∧
        wfList items = true ∧ countTopList items = 0)
  | .file i c => by
    intro r h
    simp [scanDir] at h
    exact Or.inr (Or.inl ⟨_, h.symm⟩)
  | .broken => by
    intro r h
    simp [scanDir] at h
    exact Or.inr (Or.inl ⟨_, h.symm⟩)
  | .dir i (.error e) => by
    intro r h
    simp [scanDir] at h
    exact Or.inr (Or.inl ⟨_, h.symm⟩)
  | .dir i (.ok files) => by
    intro r h
    cases hsi : scanItems d files with
    | none => simp [scanDir, hsi] at h
    | some res =>
      cases res with
      | error e =>
        simp [scanDir, hsi] at h
        exact Or.inr (Or.inl ⟨_, h.symm⟩)
      | ok items =>
        have hinv := scanItems_inv d files items hsi
        simp [scanDir, hsi] at h
        by_cases hl : items.length > 0
        · rw [if_pos hl] at h
          injection h with h2
          refine Or.inr (Or.inr ⟨items, h2.symm, ?_, hinv.1, hinv.2⟩)
          intro hnil
          simp [hnil] at hl
        · rw [if_neg hl] at h
          injection h with h2
          exact Or.inl h2.symm

theorem scanItems_inv (d : String) :
    (files : List (String × FsNode)) → ∀ items, scanItems d files = some (.ok items) →
      wfList items = true ∧ countTopList items = 0
  | [] => by
    intro items h
    simp [scanItems] at h
    subst h
    simp [wfList, countTopList]
  | (f, node) :: rest => by
    intro items h
    cases hdf : isDesirableFile node with
    | none => simp [scanItems, hdf] at h
    | some b =>
      cases b with
      | true =>
        cases hsf : scanFile (d ++ "/" ++ f) node with
        | error e => simp [scanItems, hdf, hsf] at h
        | ok l =>
          cases hrest : scanItems d rest with
          | none => simp [scanItems, hdf, hsf, hrest] at h
          | some res =>
            cases res with
            | error e => simp [scanItems, hdf, hsf, hrest] at h
            | ok items2 =>
              have hr := scanItems_inv d rest items2 hrest
              obtain ⟨c, hc⟩ := scanFile_ok _ _ _ hsf
              simp [scanItems, hdf, hsf, hrest] at h
              subst hc
              simp [← h, wfList, wf, countTopList, countTop, hr.1, hr.2]
      | false =>
        cases hdd : isDesirableDir node with
        | none => simp [scanItems, hdf, hdd] at h
        | some b2 =>
          cases b2 with
          | false =>
            have := scanItems_inv d rest items
            simp [scanItems, hdf, hdd] at h
            exact this h
          | true =>
            cases hsd : scanDir (d ++ "/" ++ f) node with
            | none => simp [scanItems, hdf, hdd, hsd] at h
            | some r =>
              obtain ⟨co, eo⟩ := r
              cases eo with
              | some e => simp [scanItems, hdf, hdd, hsd] at h
              | none =>
                cases co with
                | none =>
                  have := scanItems_inv d rest items
                  simp [scanItems, hdf, hdd, hsd] at h
                  exact this h
                | some c =>
                  rcases scanDir_cases (d ++ "/" ++ f) node _ hsd with hc | ⟨e, hc⟩ | ⟨its, hc, hne, hwf, hct⟩
                  · simp at hc
                  · simp at hc
                  · have hcc : c = Tutorial.course (d ++ "/" ++ f) its := by
                      have h2 := hc
                      rw [Prod.mk.injEq] at h2
                      exact Option.some.inj h2.1
                    cases hrest : scanItems d rest with
                    | none => simp [scanItems, hdf, hdd, hsd, hrest] at h
                    | some res =>
                      cases res with
                      | error e => simp [scanItems, hdf, hdd, hsd, hrest] at h
                      | ok items2 =>
                        have hr := scanItems_inv d rest items2 hrest
                        simp [scanItems, hdf, hdd, hsd, hrest] at h
                        subst hcc
                        simp [← h, wfList, wf, countTopList, countTop, hr.1, hr.2,
                          hwf, hct, hne]

end

theorem loadItems_inv :
    (fileNames : List (String × FsNode)) → ∀ items, loadItems fileNames = some (.ok items) →
      wfList items = true ∧ countTopList items = 0
  | [] => by
    intro items h
    simp [loadItems] at h
    subst h
    simp [wfList, countTopList]
  | (f, node) :: rest => by
    intro items h
    cases hdf : isDesirableFile node with
    | none => simp [loadItems, hdf] at h
    | some b =>
      cases b with
      | true =>
        cases hsf : scanFile f node with
        | error e => simp [loadItems, hdf, hsf] at h
        | ok l =>
          cases hrest : loadItems rest with
          | none => simp [loadItems, hdf, hsf, hrest] at h
          | some res =>
            cases res with
            | error e => simp [loadItems, hdf, hsf, hrest] at h
            | ok items2 =>
              have hr := loadItems_inv rest items2 hrest
              obtain ⟨c, hc⟩ := scanFile_ok _ _ _ hsf
              simp [loadItems, hdf, hsf, hrest] at h
              subst hc
              simp [← h, wfList, wf, countTopList, countTop, hr.1, hr.2]
      | false =>
        cases hdd : isDesirableDir node with
        | none => simp [loadItems, hdf, hdd] at h
        | some b2 =>
          cases b2 with
          | false =>
            have := loadItems_inv rest items
            simp [loadItems, hdf, hdd] at h
            exact this h
          | true =>
            cases hsd : scanDir f node with
            | none => simp [loadItems, hdf, hdd, hsd] at h
            | some r =>
              obtain ⟨co, eo⟩ := r
              cases eo with
              | some e => simp [loadItems, hdf, hdd, hsd] at h
              | none =>
                cases co with
                | none =>
                  have := loadItems_inv rest items
                  simp [loadItems, hdf, hdd, hsd] at h
                  exact this h
                | some c =>
                  rcases scanDir_cases f node _ hsd with hc | ⟨e, hc⟩ | ⟨its, hc, hne, hwf, hct⟩
                  · simp at hc
                  · simp at hc
                  · have hcc : c = Tutorial.course f its := by
                      have h2 := hc
                      rw [Prod.mk.injEq] at h2
                      exact Option.some.inj h2.1
                    cases hrest : loadItems rest with
                    | none => simp [loadItems, hdf, hdd, hsd, hrest] at h
                    | some res =>
                      cases res with
                      | error e => simp [loadItems, hdf, hdd, hsd, hrest] at h
                      | ok items2 =>
                        have hr := loadItems_inv rest items2 hrest
                        simp [loadItems, hdf, hdd, hsd, hrest] at h
                        subst hcc
                        simp [← h, wfList, wf, countTopList, countTop, hr.1, hr.2,
                          hwf, hct, hne]

theorem LoadOne_shape (root : String) (n : FsNode) (t : Tutorial)
    (h : LoadOne root n = some (some t, none)) :
    (isDesirableFile n = some true ∧ ∃ c, t = .lesson root c) ∨
    (isDesirableFile n = some false ∧ ∃ items, t = .topCourse root items ∧ items ≠ [] ∧
      wfList items = true ∧ countTopList items = 0) := by
  cases hdf : isDesirableFile n with
  | none => simp [LoadOne, hdf] at h
  | some b =>
    cases b with
    | true =>
      cases hsf : scanFile root n with
      | error e => simp [LoadOne, hdf, hsf, toRet] at h
      | ok l =>
        obtain ⟨c, hc⟩ := scanFile_ok _ _ _ hsf
        simp [LoadOne, hdf, hsf, toRet] at h
        exact Or.inl ⟨rfl, c, by rw [← h, hc]⟩
    | false =>
      cases hdd : isDesirableDir n with
      | none => simp [LoadOne, hdf, hdd] at h
      | some b2 =>
        cases b2 with
        | false => simp [LoadOne, hdf, hdd] at h
        | true =>
          cases hsd : scanDir root n with
          | none => simp [LoadOne, hdf, hdd, hsd] at h
          | some r =>
            obtain ⟨co, eo⟩ := r
            cases eo with
            | some e => simp [LoadOne, hdf, hdd, hsd] at h
            | none =>
              cases co with
              | none => simp [LoadOne, hdf, hdd, hsd] at h
              | some c =>
                rcases scanDir_cases root n _ hsd with hc | ⟨e, hc⟩ | ⟨its, hc, hne, hwf, hct⟩
                · simp at hc
                · simp at hc
                · have hcc : c = Tutorial.course root its := by
                    have h2 := hc
                    rw [Prod.mk.injEq] at h2
                    exact Option.some.inj h2.1
                  simp [LoadOne, hdf, hdd, hsd] at h
                  refine Or.inr ⟨rfl, its, ?_, hne, hwf, hct⟩
                  rw [← h, hcc]
                  simp [Tutorial.children]

theorem LoadMany_shape (fileNames : List (String × FsNode)) (t : Tutorial)
    (h : LoadMany fileNames = some (some t, none)) :
    (∃ root n, fileNames = [(root, n)] ∧ LoadOne root n = some (some t, none)) ∨
    (2 ≤ fileNames.length ∧ ∃ items, t = .topCourse "" items ∧ items ≠ [] ∧
      wfList items = true ∧ countTopList items = 0) := by
  match fileNames with
  | [] => simp [LoadMany] at h
  | [fn] =>
    exact Or.inl ⟨fn.1, fn.2, rfl, h⟩
  | fn1 :: fn2 :: rest =>
    cases hli : loadItems (fn1 :: fn2 :: rest) with
    | none => simp [LoadMany, hli] at h
    | some res =>
      cases res with
      | error e => simp [LoadMany, hli] at h
      | ok items =>
        have hinv := loadItems_inv _ _ hli
        simp only [LoadMany, hli] at h
        by_cases hl : items.length > 0
        · rw [if_pos hl] at h
          injection h with h2
          rw [Prod.mk.injEq] at h2
          have ht : t = Tutorial.topCourse "" items := (Option.some.inj h2.1).symm
          refine Or.inr ⟨by simp, items, ht, ?_, hinv.1, hinv.2⟩
          intro hnil
          simp [hnil] at hl
        · rw [if_neg hl] at h
          simp at h

/-- Claim C1, counterexample: a successful `LoadOne` on a desirable
markdown file returns a bare `Lesson`; the returned tree contains zero
`TopCourse` nodes, not exactly one. -/
theorem c1_counterexample :
    LoadOne "a.md" exFile = some (some (Tutorial.lesson "a.md" "hello"), none) ∧
    countTop (Tutorial.lesson "a.md" "hello") = 0 :=
  ⟨rfl, rfl⟩

/-- Claim C1 as amended: a successful `LoadOne` on a file-desirable root
returns a single `Lesson` with no `TopCourse`; a successful `LoadOne` on
any other root, and a successful `LoadMany` with two or more paths,
return a tree whose root is the unique `TopCourse` node, whose `Name()`
is the empty string, and whose `Path` is the root path (the empty path
for multi-root `LoadMany`). -/
theorem c1_amended_unique_top :
    (∀ root n t, LoadOne root n = some (some t, none) → isDesirableFile n = some true →
      countTop t = 0 ∧ ∃ c, t = Tutorial.lesson root c) ∧
    (∀ root n t, LoadOne root n = some (some t, none) → isDesirableFile n = some false →
      countTop t = 1 ∧ t.name = "" ∧ ∃ items, t = Tutorial.topCourse root items) ∧
    (∀ fns t, 2 ≤ fns.length → LoadMany fns = some (some t, none) →
      countTop t = 1 ∧ t.name = "" ∧ ∃ items, t = Tutorial.topCourse "" items) := by
  refine ⟨?_, ?_, ?_⟩
  · intro root n t h hdf
    rcases LoadOne_shape root n t h with ⟨_, c, hc⟩ | ⟨hf, _⟩
    · subst hc
      exact ⟨rfl, c, rfl⟩
    · rw [hdf] at hf
      simp at hf
  · intro root n t h hdf
    rcases LoadOne_shape root n t h with ⟨hf, _⟩ | ⟨_, items, ht, hne, hwf, hct⟩
    · rw [hdf] at hf
      simp at hf
    · subst ht
      exact ⟨by simp [countTop, hct], rfl, items, rfl⟩
  · intro fns t hlen h
    rcases LoadMany_shape fns t h with ⟨root, n, hfns, _⟩ | ⟨_, items, ht, hne, hwf, hct⟩
    · subst hfns
      simp at hlen
    · subst ht
      exact ⟨by simp [countTop, hct], rfl, items, rfl⟩

/-- Witness for the amended claim C1 at a concrete one-file directory. -/
theorem c1_amended_unique_top_witness :
    countTop (Tutorial.topCourse "d" [Tutorial.lesson "d/a.md" "hello"]) = 1 ∧
    Tutorial.name (Tutorial.topCourse "d" [Tutorial.lesson "d/a.md" "hello"]) = "" ∧
    ∃ items, Tutorial.topCourse "d" [Tutorial.lesson "d/a.md" "hello"] =
      Tutorial.topCourse "d" items :=
  c1_amended_unique_top.2.1 "d" exDir
    (Tutorial.topCourse "d" [Tutorial.lesson "d/a.md" "hello"]) rfl rfl

/-- Claim C2, counterexample: when the lexer's mapping carries the target
label with an **empty** block list, `VisitLesson` still appends a
parsed-file result (the code tests only presence), so "appends iff the
label maps to a non-empty block list" is false. -/
theorem c2_counterexample :
    parseEmptyHit "x" "lab" = some [] ∧
    (parserAccept parseEmptyHit ⟨"lab", []⟩ (Tutorial.lesson "f.md" "x")).parsedFiles =
      [⟨"f.md", []⟩] ∧
    ([(⟨"f.md", []⟩ : ParsedFile Nat)] : List (ParsedFile Nat)) ≠ [] :=
  ⟨rfl, rfl, by simp⟩

/-- Claim C2 as amended: for every lesson it visits, the content parser
appends the (path, blocks) pair exactly when the lexer's mapping carries
the target label — with whatever block list it maps to, empty included —
and the results accumulate in visit order over the whole traversal;
label absence contributes nothing and is never an error. -/
theorem c2_amended_content_extraction :
    ∀ (β : Type) (parse : String → String → Option (List β)) (v : TutorialParser β)
      (t : Tutorial),
      parserAccept parse v t =
        ⟨v.label, v.parsedFiles ++ (lessonsOf t).filterMap
          (fun x => (parse x.2 v.label).map (fun bs => ⟨x.1, bs⟩))⟩ :=
  fun _ parse v t => parserAccept_lessons parse v t

/-- Claim C3 (code bug): a directory listing containing an entry whose
`os.Stat` fails makes `scanDir` panic (nil `FileInfo` dereference inside
the filter's log call) instead of skipping the undesirable entry. -/
theorem c3_stat_panic : scanDir "d" exBrokenDir = none := rfl

/-- Claim C5 (code bug): `LoadOne` on a root whose `os.Stat` fails
panics in the filters instead of returning the "Cannot process" error. -/
theorem c5_stat_panic : LoadOne "missing" FsNode.broken = none := rfl

/-- Claim C6 (code bug): on a stat failure neither filter returns
`false` — both panic evaluating `s.Name()` on the nil `FileInfo` in
their logging call. -/
theorem c6_stat_panic :
    isDesirableFile FsNode.broken = none ∧ isDesirableDir FsNode.broken = none :=
  ⟨rfl, rfl⟩

/-- Claim C7: lessons never carry children; every tree a successful
`LoadOne` or `LoadMany` returns satisfies the shape invariant (every
course node has a non-empty child list); and `scanDir` never produces an
empty course — an empty accumulation is pruned to absence instead. -/
theorem c7_course_nonempty :
    (∀ p c, Tutorial.children (Tutorial.lesson p c) = []) ∧
    (∀ root n t, LoadOne root n = some (some t, none) → wf t = true) ∧
    (∀ fns t, LoadMany fns = some (some t, none) → wf t = true) ∧
    (∀ d n t eo, scanDir d n = some (some t, eo) → t.children ≠ []) := by
  have hone : ∀ root n t, LoadOne root n = some (some t, none) → wf t = true := by
    intro root n t h
    rcases LoadOne_shape root n t h with ⟨_, c, hc⟩ | ⟨_, items, ht, hne, hwf, hct⟩
    · subst hc
      rfl
    · subst ht
      simp [wf, hwf]
  refine ⟨fun p c => rfl, hone, ?_, ?_⟩
  · intro fns t h
    rcases LoadMany_shape fns t h with ⟨root, n, hfns, hl⟩ | ⟨_, items, ht, hne, hwf, hct⟩
    · exact hone root n t hl
    · subst ht
      simp [wf, hwf]
  · intro d n t eo h
    rcases scanDir_cases d n _ h with hc | ⟨e, hc⟩ | ⟨its, hc, hne, hwf, hct⟩
    · simp at hc
    · simp at hc
    · have ht : t = Tutorial.course d its := by
        have h2 := hc
        rw [Prod.mk.injEq] at h2
        exact Option.some.inj h2.1
      subst ht
      simpa [Tutorial.children] using hne

/-- Witness for claim C7 at a concrete one-file directory. -/
theorem c7_course_nonempty_witness :
    wf (Tutorial.topCourse "d" [Tutorial.lesson "d/a.md" "hello"]) = true :=
  c7_course_nonempty.2.1 "d" exDir (Tutorial.topCourse "d" [Tutorial.lesson "d/a.md" "hello"]) rfl

/-- Claim C8: all three visitors factor through the same canonical
pre-order visit sequence `visitSeq` — each one's complete behaviour is a
single left-to-right pass over it — so the debug printer, the nav
renderer and the content parser visit the nodes (in particular the
lessons) of any tree in the identical pre-order, never reordered or
deduplicated. -/
theorem c8_same_visit_order :
    (∀ (sample : String → Nat → String) (v : TutorialPrinter) (t : Tutorial),
      printerAccept sample v t = printerFold sample v (visitSeq t)) ∧
    (∀ (β : Type) (parse : String → String → Option (List β)) (v : TutorialParser β)
      (t : Tutorial), parserAccept parse v t = parserFold parse v (visitSeq t)) ∧
    (∀ (st : NavPrinter) (d : Nat) (t : Tutorial),
      navFold ⟨st.idCount, st.lessonCount, d, st.w⟩ (visitSeq t) =
        ⟨(navAccept st d t).idCount, (navAccept st d t).lessonCount, d,
          (navAccept st d t).w⟩) :=
  ⟨fun sample v t => printerAccept_eq_fold sample v t,
   fun _ parse v t => parserAccept_eq_fold parse v t,
   fun st d t => navAccept_eq_fold st d t⟩

/-- Claim C9: the debug printer emits exactly the document described in
the design: a lesson line is `<indent><name> --- <sample(content,60)>...\n`;
a course emits its `<indent><name>\n` line and its children 3 columns
deeper, restoring the indent afterwards; the top course emits nothing of
its own and leaves the indent unchanged. -/
theorem c9_debug_printer :
    ∀ (sample : String → Nat → String) (v : TutorialPrinter) (t : Tutorial),
      printerAccept sample v t = ⟨v.indent, v.w ++ printerDocChunks sample v.indent t⟩ :=
  fun sample v t => printerAccept_doc sample v t

/-- Claim C10: whenever `LoadOne` or `LoadMany` returns with a `nil`
error, the returned tree is present — `scanDir`'s internal
`(nil, nil)` "no node" outcome never escapes through the public
loaders. -/
theorem c10_no_silent_absence :
    (∀ root n r, LoadOne root n = some r → r.2 = none → ∃ t, r.1 = some t) ∧
    (∀ fns r, LoadMany fns = some r → r.2 = none → ∃ t, r.1 = some t) := by
  have hone : ∀ root n r, LoadOne root n = some r → r.2 = none → ∃ t, r.1 = some t := by
    intro root n r h he
    cases hdf : isDesirableFile n with
    | none => simp [LoadOne, hdf] at h
    | some b =>
      cases b with
      | true =>
        cases hsf : scanFile root n with
        | error e =>
          simp [LoadOne, hdf, hsf, toRet] at h
          subst h
          simp at he
        | ok l =>
          simp [LoadOne, hdf, hsf, toRet] at h
          subst h
          exact ⟨l, rfl⟩
      | false =>
        cases hdd : isDesirableDir n with
        | none => simp [LoadOne, hdf, hdd] at h
        | some b2 =>
          cases b2 with
          | false =>
            simp [LoadOne, hdf, hdd] at h
            subst h
            simp at he
          | true =>
            cases hsd : scanDir root n with
            | none => simp [LoadOne, hdf, hdd, hsd] at h
            | some r2 =>
              obtain ⟨co, eo⟩ := r2
              cases eo with
              | some e =>
                simp [LoadOne, hdf, hdd, hsd] at h
                subst h
                simp at he
              | none =>
                cases co with
                | none =>
                  simp [LoadOne, hdf, hdd, hsd] at h
                  subst h
                  simp at he
                | some c =>
                  simp [LoadOne, hdf, hdd, hsd] at h
                  subst h
                  exact ⟨_, rfl⟩
  refine ⟨hone, ?_⟩
  intro fns r h he
  match fns with
  | [] =>
    simp [LoadMany] at h
    subst h
    simp at he
  | [fn] => exact hone fn.1 fn.2 r h he
  | a :: b :: rest =>
    cases hli : loadItems (a :: b :: rest) with
    | none => simp [LoadMany, hli] at h
    | some res =>
      cases res with
      | error e =>
        simp [LoadMany, hli] at h
        subst h
        simp at he
      | ok items =>
        simp only [LoadMany, hli] at h
        by_cases hl : items.length > 0
        · rw [if_pos hl] at h
          injection h with h2
          subst h2
          exact ⟨_, rfl⟩
        · rw [if_neg hl] at h
          injection h with h2
          subst h2
          simp at he

/-- Witness for claim C10 at a concrete desirable file. -/
theorem c10_no_silent_absence_witness :
    ∃ t, (some (Tutorial.lesson "a.md" "hello"), (none : Option String)).1 = some t :=
  c10_no_silent_absence.1 "a.md" exFile
    (some (Tutorial.lesson "a.md" "hello"), (none : Option String)) rfl rfl

set_option maxRecDepth 20000 in
/-- Claim C4: the spec-modelled nav renderer reproduces both reference
fixtures byte-for-byte — a single empty lesson renders the five-line
fragment with data-name `.`, leaf handle `assureActive('L0')` and open
body `n1`; a course named `hey` holding one empty lesson renders the
nested fragment with outer `toggle('n1')` open and inner
`assureActive('L0')` closed under body `n2`. -/
theorem c4_nav_fixtures :
    String.join (navAccept ⟨0, 0, []⟩ 0 (Tutorial.lesson "" "")).w =
      "<div class='lnav1' data-name=\".\">\n  <div onclick=\"assureActive('L0')\">.</div>\n  <div id='n1' style='display: block;'>\n  </div>\n</div>\n" ∧
    String.join (navAccept ⟨0, 0, []⟩ 0 (Tutorial.course "hey" [Tutorial.lesson "" ""])).w =
      "<div class='lnav1' data-name=\"hey\">\n  <div onclick=\"toggle('n1')\">hey</div>\n  <div id='n1' style='display: block;'>\n    <div class='lnav1' data-name=\".\">\n      <div onclick=\"assureActive('L0')\">.</div>\n      <div id='n2' style='display: none;'>\n      </div>\n    </div>\n  </div>\n</div>\n" :=
  ⟨rfl, rfl⟩
